import Mathlib

/-!
Verification of the concentrated-liquidity LP valuation engine
(`src/lp_value_calc.ts`, class `V3LpValue`).

Modelling conventions: `decimal.js` `Decimal` values and JavaScript
`number` values are both embedded as real numbers (`ℝ`), i.e. the
arithmetic is idealised as exact; `Decimal(1.0001).pow(t / 2)` is embedded
as the real power `1.0001 ^ (t / 2)`, `Math.sqrt` as `Real.sqrt`,
`Math.min` as `min`.  Tick indices are `ℤ`, token decimal precisions `ℕ`,
and the raw fixed-point square-root price `sqrtPriceX96` is `ℕ`
(a non-negative chain integer).  The fee-collection simulation
(`nftContract.collect.staticCall`, which either yields two fee amounts or
throws) is embedded as an `Option (ℝ × ℝ)` input: `some (feeX, feeY)` for
a successful simulation, `none` for a failed one, matching the
`try`/`catch` in `getPositionAmounts`.
-/

namespace LpValueCalc

/-- Embeds lines 91–92 of `getPositionAmounts`:
`new Decimal(1.0001).pow(tick / 2)`.  JavaScript `tick / 2` is exact
(non-integer) division, so the exponent is the real number `t / 2`. -/
noncomputable def sqrtPriceFromTick (t : ℤ) : ℝ :=
  (1.0001 : ℝ) ^ ((t : ℝ) / 2)

/-- Embeds line 90 of `getPositionAmounts`:
`sqrtPriceX96.div(new Decimal(2).pow(96))`. -/
noncomputable def sqrtPriceCurrentOfX96 (sqrtPriceX96 : ℕ) : ℝ :=
  (sqrtPriceX96 : ℝ) / 2 ^ 96

/-- Embeds lines 94–105 of `getPositionAmounts`: the decomposition of the
position liquidity into the two raw asset amounts.  The branch is selected
by comparing `currentTick` with the position's tick bounds (strict
`currentTick < tickLower` / `currentTick > tickUpper`, mixed branch
otherwise), while the amount formulas use the square-root prices computed
on lines 90–92 (`.pow(-1)` is the inverse). -/
noncomputable def positionAmounts (liquidity : ℝ) (tickLower tickUpper currentTick : ℤ)
    (sqrtPriceX96 : ℕ) : ℝ × ℝ :=
  let sqrtPriceCurrent := sqrtPriceCurrentOfX96 sqrtPriceX96
  let sqrtPriceLower := sqrtPriceFromTick tickLower
  let sqrtPriceUpper := sqrtPriceFromTick tickUpper
  if currentTick < tickLower then
    (liquidity * (sqrtPriceLower⁻¹ - sqrtPriceUpper⁻¹), 0)
  else if currentTick > tickUpper then
    (0, liquidity * (sqrtPriceUpper - sqrtPriceLower))
  else
    (liquidity * (sqrtPriceCurrent⁻¹ - sqrtPriceUpper⁻¹),
     liquidity * (sqrtPriceCurrent - sqrtPriceLower))

/-- Embeds `calculateV3Liquidity` (lines 39–58): the
liquidity-from-amounts operation, branching on the current square-root
price against the bounds with `<=` / `>=`, and taking `Math.min` of the
two single-asset-implied liquidities in the within-range branch. -/
noncomputable def calculateV3Liquidity (amountX amountY sqrtPriceCurrent sqrtPriceLower
    sqrtPriceUpper : ℝ) : ℝ :=
  if sqrtPriceCurrent ≤ sqrtPriceLower then
    amountX * (sqrtPriceUpper * sqrtPriceLower) / (sqrtPriceUpper - sqrtPriceLower)
  else if sqrtPriceCurrent ≥ sqrtPriceUpper then
    amountY / (sqrtPriceUpper - sqrtPriceLower)
  else
    min (amountX * (sqrtPriceUpper * sqrtPriceCurrent) / (sqrtPriceUpper - sqrtPriceCurrent))
      (amountY / (sqrtPriceCurrent - sqrtPriceLower))

/-- The divisors of each division performed by `calculateV3Liquidity`,
listed per branch exactly as they appear in the source (lines 46–57): the
two outer branches each divide once by `sqrtPriceUpper - sqrtPriceLower`;
the within-range branch divides by `sqrtPriceUpper - sqrtPriceCurrent`
(in `lx`) and by `sqrtPriceCurrent - sqrtPriceLower` (in `ly`). -/
noncomputable def calculateV3LiquidityDivisors (sqrtPriceCurrent sqrtPriceLower
    sqrtPriceUpper : ℝ) : List ℝ :=
  if sqrtPriceCurrent ≤ sqrtPriceLower then
    [sqrtPriceUpper - sqrtPriceLower]
  else if sqrtPriceCurrent ≥ sqrtPriceUpper then
    [sqrtPriceUpper - sqrtPriceLower]
  else
    [sqrtPriceUpper - sqrtPriceCurrent, sqrtPriceCurrent - sqrtPriceLower]

/-- Embeds `calculatePositionValue` (lines 61–70): values the display
liquidity by the full-range formulas `amountX = liquidity / sqrt(price)`,
`amountY = liquidity * sqrt(price)` and sums the two USD legs. -/
noncomputable def calculatePositionValue (liquidity currentPrice tokenXPriceUsd
    tokenYPriceUsd : ℝ) : ℝ :=
  liquidity / Real.sqrt currentPrice * tokenXPriceUsd +
    liquidity * Real.sqrt currentPrice * tokenYPriceUsd

/-- Embeds lines 160–165 of `getTokenPriceFromPool`: the decimal
adjustment of the pool price.  `decimalDiff = decimals0 - decimals1`;
`decimalAdjustment = Decimal('1' + '0'.repeat(Math.abs(decimalDiff)))`,
i.e. exactly `10 ^ |decimalDiff|`; multiply when `decimalDiff >= 0`,
divide otherwise. -/
noncomputable def adjustForDecimals (price : ℝ) (decimals0 decimals1 : ℕ) : ℝ :=
  let decimalDiff : ℤ := (decimals0 : ℤ) - (decimals1 : ℤ)
  let decimalAdjustment : ℝ := 10 ^ decimalDiff.natAbs
  if 0 ≤ decimalDiff then price * decimalAdjustment else price / decimalAdjustment

/-- Embeds the pure price computation of `getTokenPriceFromPool`
(lines 152–167): `sqrtPrice = sqrtPriceX96 / 2^96`,
`price = sqrtPrice * sqrtPrice`, then the decimal adjustment. -/
noncomputable def getTokenPriceFromPool (sqrtPriceX96 : ℕ) (decimals0 decimals1 : ℕ) : ℝ :=
  let sqrtPrice := sqrtPriceCurrentOfX96 sqrtPriceX96
  adjustForDecimals (sqrtPrice * sqrtPrice) decimals0 decimals1

/-- The record returned by `calculateLpValue` (lines 277–285 and the
`PositionValue` interface, lines 6–13, plus `blockNumber`). -/
structure LpValueResult where
  blockNumber : ℕ
  tokenPrice : ℝ
  tokenXPrice : ℝ
  tokenYPrice : ℝ
  positionValue : ℝ
  unclaimedFees : ℝ
  totalValue : ℝ

/-- Embeds the valuation pipeline of `calculateLpValue` (lines 199–286),
with all chain reads replaced by their values: the position state
(`liquidity`, `tickLower`, `tickUpper`), the pool state (`sqrtPriceX96`,
`currentTick`), the token decimal precisions, the fee-simulation outcome
(`none` when `collect.staticCall` throws, in which case lines 127–132
substitute zero for both fee amounts), the already-resolved USD prices
`tokenXUPrice` / `tokenYUPrice` (lines 237–251), and the block number.
`priceLower` / `priceUpper` are the two public mutable instance fields of
`V3LpValue` (lines 18–19) read on lines 254–255. -/
noncomputable def calculateLpValue (priceLower priceUpper : ℝ)
    (liquidity : ℝ) (tickLower tickUpper : ℤ)
    (sqrtPriceX96 : ℕ) (currentTick : ℤ)
    (decimals0 decimals1 : ℕ)
    (fees : Option (ℝ × ℝ))
    (tokenXUPrice tokenYUPrice : ℝ)
    (blockNumber : ℕ) : LpValueResult :=
  let amounts := positionAmounts liquidity tickLower tickUpper currentTick sqrtPriceX96
  let feeX := (fees.getD (0, 0)).1
  let feeY := (fees.getD (0, 0)).2
  let tokenPrice := getTokenPriceFromPool sqrtPriceX96 decimals0 decimals1
  let sqrtPriceCurrent := Real.sqrt tokenPrice
  let sqrtPriceLower := Real.sqrt priceLower
  let sqrtPriceUpper := Real.sqrt priceUpper
  let liq := calculateV3Liquidity (amounts.1 / 10 ^ decimals0) (amounts.2 / 10 ^ decimals1)
    sqrtPriceCurrent sqrtPriceLower sqrtPriceUpper
  let positionValue := calculatePositionValue liq tokenPrice tokenXUPrice tokenYUPrice
  let feeValue := feeX * tokenXUPrice / 10 ^ decimals0 + feeY * tokenYUPrice / 10 ^ decimals1
  { blockNumber := blockNumber
    tokenPrice := tokenPrice
    tokenXPrice := tokenXUPrice
    tokenYPrice := tokenYUPrice
    positionValue := positionValue
    unclaimedFees := feeValue
    totalValue := positionValue + feeValue }

/-- Modelled from the spec: the on-chain invariant relating the pool's
current tick to its current square-root price (glossary: a tick `t`
denotes the price `1.0001 ^ t`, and `slot0` reports the tick whose price
interval contains the current price), i.e.
`1.0001 ^ (tick / 2) ≤ sqrtPriceX96 / 2^96 < 1.0001 ^ ((tick + 1) / 2)`.
The source reads both fields from `slot0` without re-validating this. -/
noncomputable def tickPriceConsistent (currentTick : ℤ) (sqrtPriceX96 : ℕ) : Prop :=
  sqrtPriceFromTick currentTick ≤ sqrtPriceCurrentOfX96 sqrtPriceX96 ∧
    sqrtPriceCurrentOfX96 sqrtPriceX96 < sqrtPriceFromTick (currentTick + 1)

/- ### Helper lemmas about `sqrtPriceFromTick` -/

lemma sqrtPriceFromTick_pos (t : ℤ) : 0 < sqrtPriceFromTick t := by
  unfold sqrtPriceFromTick
  exact Real.rpow_pos_of_pos (by norm_num) _

lemma sqrtPriceFromTick_lt_iff {s t : ℤ} :
    sqrtPriceFromTick s < sqrtPriceFromTick t ↔ s < t := by
  unfold sqrtPriceFromTick
  rw [Real.rpow_lt_rpow_left_iff (by norm_num)]
  constructor
  · intro h
    have hst : (s : ℝ) < (t : ℝ) := by linarith
    exact_mod_cast hst
  · intro h
    have hst : (s : ℝ) < (t : ℝ) := by exact_mod_cast h
    linarith

lemma sqrtPriceFromTick_zero : sqrtPriceFromTick 0 = 1 := by
  unfold sqrtPriceFromTick
  norm_num

lemma sqrtPriceFromTick_two : sqrtPriceFromTick 2 = 1.0001 := by
  unfold sqrtPriceFromTick
  rw [show ((2 : ℤ) : ℝ) / 2 = 1 by norm_num, Real.rpow_one]

lemma lt_sqrtPriceFromTick_three {x : ℝ}
    (h : x ^ 2 < 1.0001 ^ 3) : x < sqrtPriceFromTick 3 := by
  have hb : (0 : ℝ) ≤ 1.0001 := by norm_num
  have hsq : sqrtPriceFromTick 3 ^ 2 = (1.0001 : ℝ) ^ 3 := by
    unfold sqrtPriceFromTick
    rw [show ((3 : ℤ) : ℝ) / 2 = 3 / 2 by norm_num]
    rw [show ((1.0001 : ℝ) ^ ((3 : ℝ) / 2)) ^ 2 = ((1.0001 : ℝ) ^ ((3 : ℝ) / 2)) ^ ((2 : ℕ) : ℝ)
      by rw [Real.rpow_natCast]]
    rw [← Real.rpow_mul hb]
    norm_num
  have h3 : x ^ 2 < sqrtPriceFromTick 3 ^ 2 := by rw [hsq]; exact h
  exact lt_of_pow_lt_pow_left₀ 2 (le_of_lt (sqrtPriceFromTick_pos 3)) h3

/- ### Helper evaluation lemmas for concrete pipeline inputs -/

lemma real_sqrt_four : Real.sqrt 4 = 2 := by
  rw [show (4 : ℝ) = 2 ^ 2 by norm_num, Real.sqrt_sq (by norm_num)]

lemma real_sqrt_nine : Real.sqrt 9 = 3 := by
  rw [show (9 : ℝ) = 3 ^ 2 by norm_num, Real.sqrt_sq (by norm_num)]

lemma getTokenPriceFromPool_two_pow_97 : getTokenPriceFromPool (2 ^ 97) 0 0 = 4 := by
  unfold getTokenPriceFromPool adjustForDecimals sqrtPriceCurrentOfX96
  norm_num

lemma positionAmounts_above_ex : positionAmounts (10 ^ 6) 0 2 3 (2 ^ 97) = (0, 100) := by
  unfold positionAmounts
  rw [if_neg (by decide : ¬ (3 : ℤ) < 0), if_pos (by decide : (3 : ℤ) > 2),
    sqrtPriceFromTick_two, sqrtPriceFromTick_zero]
  norm_num

/- ### Claim theorems -/

/-- C7: Decimal adjustment round-trips exactly: for every price `p` and
non-negative integer decimal precisions `d0`, `d1`, adjusting `p` with
`(d0, d1)` and then adjusting the result with `(d1, d0)` returns `p`
exactly. -/
theorem adjustForDecimals_roundtrip (p : ℝ) (d0 d1 : ℕ) :
    adjustForDecimals (adjustForDecimals p d0 d1) d1 d0 = p := by
  unfold adjustForDecimals
  have hswap : ((d1 : ℤ) - (d0 : ℤ)).natAbs = ((d0 : ℤ) - (d1 : ℤ)).natAbs := by omega
  have hA : (10 : ℝ) ^ ((d0 : ℤ) - (d1 : ℤ)).natAbs ≠ 0 := pow_ne_zero _ (by norm_num)
  simp only [hswap]
  split_ifs with h1 h2 h3
  · have hd : d0 = d1 := by omega
    subst hd
    simp
  · exact div_mul_cancel₀ p hA
  · exact mul_div_cancel_right₀ p hA
  · omega

/-- C8: The decimal adjustment multiplies the raw price by
`10 ^ (decimals0 - decimals1)` when `decimals0 ≥ decimals1` and divides it
by `10 ^ (decimals1 - decimals0)` otherwise; in particular for
`decimals0 = 18`, `decimals1 = 6` it multiplies the price by `10 ^ 12`. -/
theorem adjustForDecimals_scale (p : ℝ) (d0 d1 : ℕ) :
    (d1 ≤ d0 → adjustForDecimals p d0 d1 = p * 10 ^ (d0 - d1)) ∧
    (d0 < d1 → adjustForDecimals p d0 d1 = p / 10 ^ (d1 - d0)) ∧
    adjustForDecimals p 18 6 = p * 10 ^ (12 : ℕ) := by
  refine ⟨?_, ?_, ?_⟩
  · intro h
    unfold adjustForDecimals
    rw [if_pos (by omega : (0 : ℤ) ≤ (d0 : ℤ) - (d1 : ℤ))]
    congr 1
    congr 1
    omega
  · intro h
    unfold adjustForDecimals
    rw [if_neg (by omega : ¬ (0 : ℤ) ≤ (d0 : ℤ) - (d1 : ℤ))]
    congr 1
    congr 1
    omega
  · unfold adjustForDecimals
    norm_num

/-- C8 witness: at `p = 3`, `d0 = 18`, `d1 = 6` the multiply branch
applies and scales by `10 ^ 12`. -/
theorem adjustForDecimals_scale_app :
    adjustForDecimals 3 18 6 = 3 * 10 ^ (12 : ℕ) :=
  (adjustForDecimals_scale 3 18 6).1 (by norm_num)

/-- C9: Under the precondition `sqrtPriceLower < sqrtPriceUpper`, every
division performed by `calculateV3Liquidity` has a non-zero divisor (the
outer branches divide by `sqrtPriceUpper - sqrtPriceLower`; the
within-range branch, guarded by
`sqrtPriceLower < c < sqrtPriceUpper`, divides by `sqrtPriceUpper - c`
and `c - sqrtPriceLower`); without the strict precondition, the
zero-width case `sqrtPriceLower = sqrtPriceUpper` reaches a division by
zero. -/
theorem calculateV3LiquidityDivisors_nonzero :
    (∀ c lo hi : ℝ, lo < hi →
      ∀ d ∈ calculateV3LiquidityDivisors c lo hi, d ≠ 0) ∧
    (∀ c lo : ℝ, (0 : ℝ) ∈ calculateV3LiquidityDivisors c lo lo) := by
  constructor
  · intro c lo hi hlt d hd
    unfold calculateV3LiquidityDivisors at hd
    split_ifs at hd with h1 h2
    · simp only [List.mem_singleton] at hd
      subst hd
      exact sub_ne_zero_of_ne (ne_of_gt hlt)
    · simp only [List.mem_singleton] at hd
      subst hd
      exact sub_ne_zero_of_ne (ne_of_gt hlt)
    · push_neg at h1 h2
      simp only [List.mem_cons, List.not_mem_nil, or_false] at hd
      rcases hd with hd | hd
      · subst hd
        exact sub_ne_zero_of_ne (ne_of_gt h2)
      · subst hd
        exact sub_ne_zero_of_ne (ne_of_gt h1)
  · intro c lo
    unfold calculateV3LiquidityDivisors
    split_ifs with h1 h2
    · simp
    · simp
    · exfalso
      push_neg at h1 h2
      exact absurd h2 (not_lt.mpr (le_of_lt h1))

/-- C9 witness: at `c = 4`, `lo = 1`, `hi = 3` the above-range branch's
divisor `hi - lo = 2` is non-zero, and the zero-width range `lo = hi = 2`
puts `0` among the divisors. -/
theorem calculateV3LiquidityDivisors_nonzero_app :
    ((3 : ℝ) - 1 ≠ 0) ∧ (0 : ℝ) ∈ calculateV3LiquidityDivisors 5 2 2 :=
  ⟨calculateV3LiquidityDivisors_nonzero.1 4 1 3 (by norm_num) ((3 : ℝ) - 1)
      (by unfold calculateV3LiquidityDivisors; norm_num),
    calculateV3LiquidityDivisors_nonzero.2 5 2⟩

/-- C6: `calculateV3Liquidity` has the same three-branch structure as the
decomposition but solves for `L`, taking in the within-range branch the
minimum of the two single-asset-implied liquidities; consequently, for
every `L ≥ 0` and `lo < c < hi` (with the tick arguments selecting the
decomposition's within-range branch; square-root prices from ticks are
positive), applying `calculateV3Liquidity` to the pair of amounts obtained
by decomposing `L` at the same `(c, lo, hi)` returns exactly `L`. -/
theorem calculateV3Liquidity_roundtrip (liquidity : ℝ)
    (tickLower tickUpper currentTick : ℤ) (sqrtPriceX96 : ℕ)
    (_hL : 0 ≤ liquidity)
    (hct1 : tickLower ≤ currentTick) (hct2 : currentTick ≤ tickUpper)
    (hlo : sqrtPriceFromTick tickLower < sqrtPriceCurrentOfX96 sqrtPriceX96)
    (hhi : sqrtPriceCurrentOfX96 sqrtPriceX96 < sqrtPriceFromTick tickUpper) :
    calculateV3Liquidity
      (positionAmounts liquidity tickLower tickUpper currentTick sqrtPriceX96).1
      (positionAmounts liquidity tickLower tickUpper currentTick sqrtPriceX96).2
      (sqrtPriceCurrentOfX96 sqrtPriceX96) (sqrtPriceFromTick tickLower)
      (sqrtPriceFromTick tickUpper) = liquidity := by
  set c := sqrtPriceCurrentOfX96 sqrtPriceX96 with hc
  set lo := sqrtPriceFromTick tickLower with hlodef
  set hi := sqrtPriceFromTick tickUpper with hhidef
  have hlo0 : 0 < lo := sqrtPriceFromTick_pos tickLower
  have hc0 : 0 < c := lt_trans hlo0 hlo
  have hhi0 : 0 < hi := lt_trans hc0 hhi
  have hamts : positionAmounts liquidity tickLower tickUpper currentTick sqrtPriceX96 =
      (liquidity * (c⁻¹ - hi⁻¹), liquidity * (c - lo)) := by
    unfold positionAmounts
    rw [if_neg (by omega : ¬ currentTick < tickLower),
      if_neg (by omega : ¬ currentTick > tickUpper)]
  rw [hamts]
  unfold calculateV3Liquidity
  rw [if_neg (not_le.mpr hlo), if_neg (not_le.mpr hhi)]
  have h1 : liquidity * (c⁻¹ - hi⁻¹) * (hi * c) / (hi - c) = liquidity := by
    have hcne : c ≠ 0 := ne_of_gt hc0
    have hhine : hi ≠ 0 := ne_of_gt hhi0
    have hsub : hi - c ≠ 0 := sub_ne_zero_of_ne (ne_of_gt hhi)
    field_simp
    ring
  have h2 : liquidity * (c - lo) / (c - lo) = liquidity := by
    rw [mul_div_assoc, div_self (sub_ne_zero_of_ne (ne_of_gt hlo)), mul_one]
  rw [h1, h2, min_self]

/-- C4 counterexample: all hypotheses of the claim hold at liquidity `1`,
tick bounds `(0, 2)` (so `tickLower < tickUpper`), current tick `1` and
the non-negative raw square-root price `2 ^ 97` (so `c = 2`), yet the
decomposition's `amount0` is negative: the mixed branch runs (the tick
lies inside the bounds) while the current square-root price `2` exceeds
the upper bound `1.0001`, so `amount0 = 1 * (2⁻¹ - 1.0001⁻¹) < 0`. -/
theorem positionAmounts_neg_amount0_cex :
    (0 : ℝ) ≤ 1 ∧ (0 : ℤ) < 2 ∧
    (positionAmounts 1 0 2 1 (2 ^ 97)).1 < 0 := by
  refine ⟨by norm_num, by norm_num, ?_⟩
  have h : positionAmounts 1 0 2 1 (2 ^ 97) =
      (1 * ((sqrtPriceCurrentOfX96 (2 ^ 97))⁻¹ - (sqrtPriceFromTick 2)⁻¹),
       1 * (sqrtPriceCurrentOfX96 (2 ^ 97) - sqrtPriceFromTick 0)) := by
    unfold positionAmounts
    rw [if_neg (by decide : ¬ (1 : ℤ) < 0), if_neg (by decide : ¬ (1 : ℤ) > 2)]
  rw [h, sqrtPriceFromTick_two]
  unfold sqrtPriceCurrentOfX96
  norm_num

/-- C4 (amended): for every position with liquidity `≥ 0` and
`tickLower < tickUpper`, and every pool state with non-negative raw
square-root price, the two decomposed amounts are both `≥ 0`, provided
additionally that whenever the current tick lies inside the tick bounds
(so the mixed branch runs) the current square-root price lies inside
`[sqrtPriceFromTick tickLower, sqrtPriceFromTick tickUpper]` — the code
guards the mixed branch only by ticks, not by prices. -/
theorem positionAmounts_nonneg (liquidity : ℝ)
    (tickLower tickUpper currentTick : ℤ) (sqrtPriceX96 : ℕ)
    (hL : 0 ≤ liquidity) (ht : tickLower < tickUpper)
    (hrange : tickLower ≤ currentTick → currentTick ≤ tickUpper →
      sqrtPriceFromTick tickLower ≤ sqrtPriceCurrentOfX96 sqrtPriceX96 ∧
        sqrtPriceCurrentOfX96 sqrtPriceX96 ≤ sqrtPriceFromTick tickUpper) :
    0 ≤ (positionAmounts liquidity tickLower tickUpper currentTick sqrtPriceX96).1 ∧
    0 ≤ (positionAmounts liquidity tickLower tickUpper currentTick sqrtPriceX96).2 := by
  have hlohi : sqrtPriceFromTick tickLower < sqrtPriceFromTick tickUpper :=
    sqrtPriceFromTick_lt_iff.mpr ht
  have hlo0 : 0 < sqrtPriceFromTick tickLower := sqrtPriceFromTick_pos tickLower
  unfold positionAmounts
  split_ifs with h1 h2
  · refine ⟨?_, le_refl 0⟩
    have hinv : (sqrtPriceFromTick tickUpper)⁻¹ ≤ (sqrtPriceFromTick tickLower)⁻¹ := by
      apply inv_anti₀ hlo0 (le_of_lt hlohi)
    exact mul_nonneg hL (sub_nonneg.mpr hinv)
  · exact ⟨le_refl 0, mul_nonneg hL (sub_nonneg.mpr (le_of_lt hlohi))⟩
  · push_neg at h1 h2
    obtain ⟨hcl, hcu⟩ := hrange h1 h2
    have hc0 : 0 < sqrtPriceCurrentOfX96 sqrtPriceX96 := lt_of_lt_of_le hlo0 hcl
    constructor
    · have hinv : (sqrtPriceFromTick tickUpper)⁻¹ ≤ (sqrtPriceCurrentOfX96 sqrtPriceX96)⁻¹ := by
        apply inv_anti₀ hc0 hcu
      exact mul_nonneg hL (sub_nonneg.mpr hinv)
    · exact mul_nonneg hL (sub_nonneg.mpr hcl)

/-- C4 (amended) witness: liquidity `1`, tick bounds `(0, 2)`, current
tick `1`, raw square-root price `2 ^ 96 + 2 ^ 82` (so `c = 1 + 2⁻¹⁴`
lies inside `[1, 1.0001]`): both amounts are non-negative. -/
theorem positionAmounts_nonneg_app :
    0 ≤ (positionAmounts 1 0 2 1 (2 ^ 96 + 2 ^ 82)).1 ∧
    0 ≤ (positionAmounts 1 0 2 1 (2 ^ 96 + 2 ^ 82)).2 :=
  positionAmounts_nonneg 1 0 2 1 (2 ^ 96 + 2 ^ 82) (by norm_num) (by norm_num)
    (fun _ _ =>
      ⟨by rw [sqrtPriceFromTick_zero]; unfold sqrtPriceCurrentOfX96; norm_num,
       by rw [sqrtPriceFromTick_two]; unfold sqrtPriceCurrentOfX96; norm_num⟩)

/-- C1 counterexample: a tick-consistent pool state
(`currentTick = 2`, `sqrtPriceX96 = 2 ^ 96 + 2 ^ 83`, so
`c = 1 + 2⁻¹³ ∈ [1.0001 ^ 1, 1.0001 ^ (3 / 2))`) with position tick
bounds `(0, 2)` has `c ≥ hi = sqrtPriceFromTick 2`, yet the decomposition
does not return the above-range result `amount0 = 0`: the branch is
chosen by `currentTick > tickUpper` (strict), which fails at
`currentTick = tickUpper = 2`, so the mixed branch runs and
`amount0 = 1 * (c⁻¹ - hi⁻¹) < 0 ≠ 0`. -/
theorem positionAmounts_boundary_mixed_cex :
    tickPriceConsistent 2 (2 ^ 96 + 2 ^ 83) ∧
    sqrtPriceFromTick 2 ≤ sqrtPriceCurrentOfX96 (2 ^ 96 + 2 ^ 83) ∧
    (positionAmounts 1 0 2 2 (2 ^ 96 + 2 ^ 83)).1 < 0 := by
  have hc : sqrtPriceCurrentOfX96 (2 ^ 96 + 2 ^ 83) = 1 + (2 : ℝ)⁻¹ ^ 13 := by
    unfold sqrtPriceCurrentOfX96
    norm_num
  have hge : sqrtPriceFromTick 2 ≤ sqrtPriceCurrentOfX96 (2 ^ 96 + 2 ^ 83) := by
    rw [sqrtPriceFromTick_two, hc]
    norm_num
  refine ⟨⟨?_, ?_⟩, hge, ?_⟩
  · exact hge
  · apply lt_sqrtPriceFromTick_three
    rw [hc]
    norm_num
  · have h : positionAmounts 1 0 2 2 (2 ^ 96 + 2 ^ 83) =
        (1 * ((sqrtPriceCurrentOfX96 (2 ^ 96 + 2 ^ 83))⁻¹ - (sqrtPriceFromTick 2)⁻¹),
         1 * (sqrtPriceCurrentOfX96 (2 ^ 96 + 2 ^ 83) - sqrtPriceFromTick 0)) := by
      unfold positionAmounts
      rw [if_neg (by decide : ¬ (2 : ℤ) < 0), if_neg (by decide : ¬ (2 : ℤ) > 2)]
    rw [h, hc, sqrtPriceFromTick_two]
    norm_num

/-- C1 (amended): the decomposition's branch is selected by the ticks,
with strict comparisons: `currentTick < tickLower` yields the below-range
result and `currentTick > tickUpper` the above-range result; under the
tick–price consistency invariant, `c < lo` does force the below-range
branch; but `c` exactly equal to `lo` (resp. `hi`) with the current tick
at the corresponding bound is classified into the mixed branch, whose
formulas then coincide in value with the below-range (resp. above-range)
result. -/
theorem positionAmounts_branch_by_tick (liquidity : ℝ)
    (tickLower tickUpper currentTick : ℤ) (sqrtPriceX96 : ℕ) :
    (currentTick < tickLower →
      positionAmounts liquidity tickLower tickUpper currentTick sqrtPriceX96 =
        (liquidity * ((sqrtPriceFromTick tickLower)⁻¹ - (sqrtPriceFromTick tickUpper)⁻¹), 0)) ∧
    (tickLower ≤ tickUpper → tickUpper < currentTick →
      positionAmounts liquidity tickLower tickUpper currentTick sqrtPriceX96 =
        (0, liquidity * (sqrtPriceFromTick tickUpper - sqrtPriceFromTick tickLower))) ∧
    (tickPriceConsistent currentTick sqrtPriceX96 →
      sqrtPriceCurrentOfX96 sqrtPriceX96 < sqrtPriceFromTick tickLower →
      currentTick < tickLower) ∧
    (tickLower ≤ currentTick → currentTick ≤ tickUpper →
      sqrtPriceCurrentOfX96 sqrtPriceX96 = sqrtPriceFromTick tickLower →
      positionAmounts liquidity tickLower tickUpper currentTick sqrtPriceX96 =
        (liquidity * ((sqrtPriceFromTick tickLower)⁻¹ - (sqrtPriceFromTick tickUpper)⁻¹), 0)) ∧
    (tickLower ≤ currentTick → currentTick ≤ tickUpper →
      sqrtPriceCurrentOfX96 sqrtPriceX96 = sqrtPriceFromTick tickUpper →
      positionAmounts liquidity tickLower tickUpper currentTick sqrtPriceX96 =
        (0, liquidity * (sqrtPriceFromTick tickUpper - sqrtPriceFromTick tickLower))) := by
  refine ⟨?_, ?_, ?_, ?_, ?_⟩
  · intro h
    unfold positionAmounts
    rw [if_pos h]
  · intro ht h
    unfold positionAmounts
    rw [if_neg (by omega : ¬ currentTick < tickLower), if_pos (by omega : currentTick > tickUpper)]
  · rintro ⟨hcons, _⟩ hlt
    have := lt_of_le_of_lt hcons hlt
    exact sqrtPriceFromTick_lt_iff.mp this
  · intro h1 h2 hc
    unfold positionAmounts
    rw [if_neg (by omega : ¬ currentTick < tickLower),
      if_neg (by omega : ¬ currentTick > tickUpper), hc, sub_self, mul_zero]
  · intro h1 h2 hc
    unfold positionAmounts
    rw [if_neg (by omega : ¬ currentTick < tickLower),
      if_neg (by omega : ¬ currentTick > tickUpper), hc, sub_self, mul_zero]

/-- C1 (amended) witness: at liquidity `1`, tick bounds `(0, 2)`, current
tick `0` and raw square-root price `2 ^ 96` (so `c = 1` equals
`lo = sqrtPriceFromTick 0`), the mixed branch produces exactly the
below-range values. -/
theorem positionAmounts_branch_by_tick_app :
    positionAmounts 1 0 2 0 (2 ^ 96) =
      (1 * ((sqrtPriceFromTick 0)⁻¹ - (sqrtPriceFromTick 2)⁻¹), 0) :=
  (positionAmounts_branch_by_tick 1 0 2 0 (2 ^ 96)).2.2.2.1 (by norm_num) (by norm_num)
    (by rw [sqrtPriceFromTick_zero]; unfold sqrtPriceCurrentOfX96; norm_num)

/-- C6 witness: `L = 5`, ticks `(0, 2)`, current tick `1`, raw price
`2^96 + 2^82` (so `c = 1 + 2⁻¹⁴`, strictly between `lo = 1` and
`hi = 1.0001`) round-trips to exactly `5`. -/
theorem calculateV3Liquidity_roundtrip_app :
    calculateV3Liquidity
      (positionAmounts 5 0 2 1 (2 ^ 96 + 2 ^ 82)).1
      (positionAmounts 5 0 2 1 (2 ^ 96 + 2 ^ 82)).2
      (sqrtPriceCurrentOfX96 (2 ^ 96 + 2 ^ 82)) (sqrtPriceFromTick 0)
      (sqrtPriceFromTick 2) = 5 :=
  calculateV3Liquidity_roundtrip 5 0 2 1 (2 ^ 96 + 2 ^ 82) (by norm_num)
    (by norm_num) (by norm_num)
    (by rw [sqrtPriceFromTick_zero]; unfold sqrtPriceCurrentOfX96; norm_num)
    (by rw [sqrtPriceFromTick_two]; unfold sqrtPriceCurrentOfX96; norm_num)

/-- C5: If the fee-collection simulation fails (`fees = none`), the
valuation does not fail: both fee amounts are substituted by zero, the
returned `unclaimedFees` is `0`, the position value equals the one of a
successful run with any fee amounts (it is computed from the decomposed
amounts exactly as in the success case), and `totalValue` equals
`positionValue`. -/
theorem calculateLpValue_fee_failure (priceLower priceUpper liquidity : ℝ)
    (tickLower tickUpper : ℤ) (sqrtPriceX96 : ℕ) (currentTick : ℤ)
    (decimals0 decimals1 : ℕ) (feeX feeY tokenXUPrice tokenYUPrice : ℝ)
    (blockNumber : ℕ) :
    (calculateLpValue priceLower priceUpper liquidity tickLower tickUpper sqrtPriceX96
        currentTick decimals0 decimals1 none tokenXUPrice tokenYUPrice
        blockNumber).unclaimedFees = 0 ∧
    (calculateLpValue priceLower priceUpper liquidity tickLower tickUpper sqrtPriceX96
        currentTick decimals0 decimals1 none tokenXUPrice tokenYUPrice
        blockNumber).positionValue =
      (calculateLpValue priceLower priceUpper liquidity tickLower tickUpper sqrtPriceX96
        currentTick decimals0 decimals1 (some (feeX, feeY)) tokenXUPrice tokenYUPrice
        blockNumber).positionValue ∧
    (calculateLpValue priceLower priceUpper liquidity tickLower tickUpper sqrtPriceX96
        currentTick decimals0 decimals1 none tokenXUPrice tokenYUPrice
        blockNumber).totalValue =
      (calculateLpValue priceLower priceUpper liquidity tickLower tickUpper sqrtPriceX96
        currentTick decimals0 decimals1 none tokenXUPrice tokenYUPrice
        blockNumber).positionValue := by
  refine ⟨?_, rfl, ?_⟩
  · simp [calculateLpValue]
  · simp [calculateLpValue]

/-- C3 counterexample: two valuation runs whose six inputs (position,
pool state, asset metadata, fee accrual, USD prices, block number) are
bit-for-bit identical but whose `priceUpper` instance field differs
(`9` versus `1`) return different position values (`0` versus `250`), so
the valuation is not a pure function of the six inputs alone. -/
theorem calculateLpValue_window_state_cex :
    (calculateLpValue 0 9 (10 ^ 6) 0 2 (2 ^ 97) 3 0 0 none 1 1 100).positionValue ≠
      (calculateLpValue 0 1 (10 ^ 6) 0 2 (2 ^ 97) 3 0 0 none 1 1 100).positionValue := by
  have h1 : (calculateLpValue 0 9 (10 ^ 6) 0 2 (2 ^ 97) 3 0 0 none 1 1
      100).positionValue = 0 := by
    simp only [calculateLpValue, calculatePositionValue, positionAmounts_above_ex,
      getTokenPriceFromPool_two_pow_97, real_sqrt_four, real_sqrt_nine,
      Real.sqrt_zero]
    unfold calculateV3Liquidity
    rw [if_neg (by norm_num), if_neg (by norm_num)]
    norm_num
  have h2 : (calculateLpValue 0 1 (10 ^ 6) 0 2 (2 ^ 97) 3 0 0 none 1 1
      100).positionValue = 250 := by
    simp only [calculateLpValue, calculatePositionValue, positionAmounts_above_ex,
      getTokenPriceFromPool_two_pow_97, real_sqrt_four, Real.sqrt_zero,
      Real.sqrt_one]
    unfold calculateV3Liquidity
    rw [if_neg (by norm_num), if_pos (by norm_num)]
    norm_num
  rw [h1, h2]
  norm_num

/-- C3 (amended): the valuation is a pure function of the six inputs
(Position, PoolState, AssetMetadata, FeeAccrual, USD prices, block
number) together with the two mutable instance fields `priceLower` and
`priceUpper`: whenever both window fields also agree across two runs with
identical six inputs, the returned results are identical. -/
theorem calculateLpValue_deterministic (priceLower priceUpper priceLower2 priceUpper2
    liquidity : ℝ) (tickLower tickUpper : ℤ) (sqrtPriceX96 : ℕ) (currentTick : ℤ)
    (decimals0 decimals1 : ℕ) (fees : Option (ℝ × ℝ))
    (tokenXUPrice tokenYUPrice : ℝ) (blockNumber : ℕ)
    (hlo : priceLower = priceLower2) (hhi : priceUpper = priceUpper2) :
    calculateLpValue priceLower priceUpper liquidity tickLower tickUpper sqrtPriceX96
        currentTick decimals0 decimals1 fees tokenXUPrice tokenYUPrice blockNumber =
      calculateLpValue priceLower2 priceUpper2 liquidity tickLower tickUpper sqrtPriceX96
        currentTick decimals0 decimals1 fees tokenXUPrice tokenYUPrice blockNumber := by
  rw [hlo, hhi]

/-- C3 (amended) witness: at one concrete full input (window `(0, 9)`
included) the valuation reproduces itself. -/
theorem calculateLpValue_deterministic_app :
    calculateLpValue 0 9 (10 ^ 6) 0 2 (2 ^ 97) 3 0 0 none 1 1 100 =
      calculateLpValue 0 9 (10 ^ 6) 0 2 (2 ^ 97) 3 0 0 none 1 1 100 :=
  calculateLpValue_deterministic 0 9 0 9 (10 ^ 6) 0 2 (2 ^ 97) 3 0 0 none 1 1 100
    rfl rfl

/-- C10: the USD position value is always computed from the display
liquidity by the full-range formulas
`amountX = liquidity / sqrt(currentPrice)` and
`amountY = liquidity * sqrt(currentPrice)`, independent of the configured
display price window: even when the current square-root price lies at or
outside the window bounds, both asset legs are valued as if the liquidity
were in range. -/
theorem calculateLpValue_positionValue_full_range (priceLower priceUpper liquidity : ℝ)
    (tickLower tickUpper : ℤ) (sqrtPriceX96 : ℕ) (currentTick : ℤ)
    (decimals0 decimals1 : ℕ) (fees : Option (ℝ × ℝ))
    (tokenXUPrice tokenYUPrice : ℝ) (blockNumber : ℕ)
    (_hout : Real.sqrt (getTokenPriceFromPool sqrtPriceX96 decimals0 decimals1) ≤
        Real.sqrt priceLower ∨
      Real.sqrt priceUpper ≤
        Real.sqrt (getTokenPriceFromPool sqrtPriceX96 decimals0 decimals1)) :
    (calculateLpValue priceLower priceUpper liquidity tickLower tickUpper sqrtPriceX96
        currentTick decimals0 decimals1 fees tokenXUPrice tokenYUPrice
        blockNumber).positionValue =
      calculateV3Liquidity
          ((positionAmounts liquidity tickLower tickUpper currentTick sqrtPriceX96).1
            / 10 ^ decimals0)
          ((positionAmounts liquidity tickLower tickUpper currentTick sqrtPriceX96).2
            / 10 ^ decimals1)
          (Real.sqrt (getTokenPriceFromPool sqrtPriceX96 decimals0 decimals1))
          (Real.sqrt priceLower) (Real.sqrt priceUpper)
        / Real.sqrt (getTokenPriceFromPool sqrtPriceX96 decimals0 decimals1)
        * tokenXUPrice +
      calculateV3Liquidity
          ((positionAmounts liquidity tickLower tickUpper currentTick sqrtPriceX96).1
            / 10 ^ decimals0)
          ((positionAmounts liquidity tickLower tickUpper currentTick sqrtPriceX96).2
            / 10 ^ decimals1)
          (Real.sqrt (getTokenPriceFromPool sqrtPriceX96 decimals0 decimals1))
          (Real.sqrt priceLower) (Real.sqrt priceUpper)
        * Real.sqrt (getTokenPriceFromPool sqrtPriceX96 decimals0 decimals1)
        * tokenYUPrice := by
  simp only [calculateLpValue, calculatePositionValue]

/-- C10 witness: with window `(0, 1)` and pool price `4` the current
square-root price `2` lies above the window's upper bound `1`, and the
position value still equals the full-range two-leg formula. -/
theorem calculateLpValue_positionValue_full_range_app :
    (calculateLpValue 0 1 (10 ^ 6) 0 2 (2 ^ 97) 3 0 0 none 1 1
        100).positionValue =
      calculateV3Liquidity
          ((positionAmounts (10 ^ 6) 0 2 3 (2 ^ 97)).1 / 10 ^ (0 : ℕ))
          ((positionAmounts (10 ^ 6) 0 2 3 (2 ^ 97)).2 / 10 ^ (0 : ℕ))
          (Real.sqrt (getTokenPriceFromPool (2 ^ 97) 0 0))
          (Real.sqrt 0) (Real.sqrt 1)
        / Real.sqrt (getTokenPriceFromPool (2 ^ 97) 0 0) * 1 +
      calculateV3Liquidity
          ((positionAmounts (10 ^ 6) 0 2 3 (2 ^ 97)).1 / 10 ^ (0 : ℕ))
          ((positionAmounts (10 ^ 6) 0 2 3 (2 ^ 97)).2 / 10 ^ (0 : ℕ))
          (Real.sqrt (getTokenPriceFromPool (2 ^ 97) 0 0))
          (Real.sqrt 0) (Real.sqrt 1)
        * Real.sqrt (getTokenPriceFromPool (2 ^ 97) 0 0) * 1 := by
  apply calculateLpValue_positionValue_full_range
  right
  rw [getTokenPriceFromPool_two_pow_97]
  exact Real.sqrt_le_sqrt (by norm_num)

end LpValueCalc
